import Mathlib

/-!
Shallow embedding of the WooCommerce / ACF tool handlers of this repository
(src/tools/woocommerce.ts, src/tools/acf.ts), together with proofs about the
response-normalization and envelope/error-mapping behaviour.

JavaScript values are modelled by the inductive `JValue`; machine numbers are
modelled as `Int` (all numbers occurring in the modelled code are ids, page
numbers and counts).  Property access `o.f` is modelled by `getField`, which
returns `.undefined` when the field is missing or the receiver is not an
object (accessing a property of `null`/`undefined` raises a TypeError in the
source; the handlers only ever access fields of API responses, and the
theorems below do not depend on that corner).  The `await`ed HTTP call is the
single effect of every handler, so a handler is modelled as a pure function
from its parameters and the outcome of that call (`Except WpError JValue`) to
the returned envelope.
-/

inductive JValue where
  | undefined
  | null
  | bool (b : Bool)
  | num (n : Int)
  | str (s : String)
  | arr (xs : List JValue)
  | obj (fields : List (String × JValue))

/-- JavaScript truthiness for the modelled value type. -/
def JValue.truthy : JValue → Bool
  | .undefined => false
  | .null => false
  | .bool b => b
  | .num n => decide (n ≠ 0)
  | .str s => decide (s ≠ "")
  | .arr _ => true
  | .obj _ => true

/-- The `Array.isArray` test. -/
def JValue.isArr : JValue → Bool
  | .arr _ => true
  | _ => false

/-- Property access `o[name]`: the value of the first binding of `name`, or
`undefined` when the receiver is not an object or has no such field. -/
def getField (v : JValue) (name : String) : JValue :=
  match v with
  | .obj fields =>
    match fields.find? (fun p => p.1 == name) with
    | some p => p.2
    | none => .undefined
  | _ => .undefined

/-- The elements of an array value, `[]` for anything else. -/
def arrElems : JValue → List JValue
  | .arr xs => xs
  | _ => []

/-- The field bindings of an object value, `[]` for anything else. -/
def objFields : JValue → List (String × JValue)
  | .obj fields => fields
  | _ => []

/-- The field names of an object value, in binding order. -/
def objKeys : JValue → List String
  | .obj fields => fields.map (fun p => p.1)
  | _ => []

/-- Map-style lookup in an object field list. -/
def objGet (fields : List (String × JValue)) (k : String) : Option JValue :=
  (fields.find? (fun p => p.1 == k)).map (fun p => p.2)

/-- JavaScript object assignment `o[k] = v`: overwrite in place when the key
is already bound, otherwise append the new binding at the end. -/
def objSet (fields : List (String × JValue)) (k : String) (v : JValue) :
    List (String × JValue) :=
  if fields.any (fun p => p.1 == k) then
    fields.map (fun p => if p.1 == k then (k, v) else p)
  else fields ++ [(k, v)]

/-- The JavaScript short-circuit `a || b` on values. -/
def jsOr (a b : JValue) : JValue := if a.truthy then a else b

/-- `a || d` for an optional number parameter (absent and `0` are falsy). -/
def jsOrInt (o : Option Int) (d : Int) : Int :=
  match o with
  | some n => if n ≠ 0 then n else d
  | none => d

/-- `a || d` for an optional string parameter (absent and `""` are falsy). -/
def jsOrStr (o : Option String) (d : String) : String :=
  match o with
  | some s => if s ≠ "" then s else d
  | none => d

/-- Truthiness of an optional number parameter, as in `if (params.page)`. -/
def optTruthy (o : Option Int) : Bool :=
  match o with
  | some n => decide (n ≠ 0)
  | none => false

/-- The `startsWith` test of JavaScript strings, modelled on the character
list. -/
def strStartsWith (s pre : String) : Bool := pre.data.isPrefixOf s.data

/-- The meta-filtering guard of `formatProductSummary` and of the variation
transform: an entry contributes to `custom_meta` exactly when its `key` field
is a truthy string that does not start with the reserved character.  A truthy
non-string `key` would raise a TypeError at `m.key.startsWith` in the source;
theorems over symbolic meta lists therefore carry the `keyWf` hypothesis
below restricting keys to strings or falsy values. -/
def metaFilter (m : JValue) : Option (String × JValue) :=
  match getField m "key" with
  | .str s =>
    if s ≠ "" ∧ strStartsWith s "_" = false then some (s, getField m "value")
    else none
  | _ => none

/-- One iteration of the `for (const m of product.meta_data)` loop body. -/
def metaStep (acc : List (String × JValue)) (m : JValue) :
    List (String × JValue) :=
  match metaFilter m with
  | some (s, v) => objSet acc s v
  | none => acc

/-- Domain restriction for symbolic meta entries: the `key` field is a string
or falsy (on truthy non-string keys the source raises instead). -/
def keyWf (m : JValue) : Bool :=
  match getField m "key" with
  | .str _ => true
  | k => !k.truthy

/-- The `custom_meta` accumulation loop shared verbatim by
`formatProductSummary` and the per-variation transform: iterate over the
`meta_data` list when it is an array, otherwise produce the empty map. -/
def buildCustomMeta (metaData : JValue) : List (String × JValue) :=
  match metaData with
  | .arr ms => ms.foldl metaStep []
  | _ => []

/-- The `product.images?.map(img => ...)` projection.  Optional chaining on a
nullish value yields `undefined`; a non-array, non-nullish value would raise
at `.map` in the source (no upstream shape does) and is modelled as itself. -/
def imagesMap (images : JValue) : JValue :=
  match images with
  | .undefined => .undefined
  | .null => .undefined
  | .arr xs => .arr (xs.map (fun img => .obj [
      ("id", getField img "id"),
      ("src", getField img "src"),
      ("name", getField img "name"),
      ("alt", getField img "alt")]))
  | v => v

/-- `formatProductSummary` from src/tools/woocommerce.ts: the fixed
re-projection of a raw product object. -/
def formatProductSummary (product : JValue) : JValue :=
  let meta := buildCustomMeta (getField product "meta_data")
  .obj [
    ("id", getField product "id"),
    ("name", getField product "name"),
    ("slug", getField product "slug"),
    ("permalink", getField product "permalink"),
    ("type", getField product "type"),
    ("status", getField product "status"),
    ("sku", getField product "sku"),
    ("price", getField product "price"),
    ("regular_price", getField product "regular_price"),
    ("sale_price", getField product "sale_price"),
    ("price_html", getField product "price_html"),
    ("on_sale", getField product "on_sale"),
    ("description", getField product "description"),
    ("short_description", getField product "short_description"),
    ("weight", getField product "weight"),
    ("dimensions", getField product "dimensions"),
    ("stock_status", getField product "stock_status"),
    ("stock_quantity", getField product "stock_quantity"),
    ("manage_stock", getField product "manage_stock"),
    ("categories", getField product "categories"),
    ("tags", getField product "tags"),
    ("images", imagesMap (getField product "images")),
    ("attributes", getField product "attributes"),
    ("variations", getField product "variations"),
    ("custom_meta", .obj meta),
    ("meta_data_all", getField product "meta_data"),
    ("acf", jsOr (getField product "acf") .null),
    ("average_rating", getField product "average_rating"),
    ("rating_count", getField product "rating_count"),
    ("total_sales", getField product "total_sales"),
    ("related_ids", getField product "related_ids"),
    ("upsell_ids", getField product "upsell_ids"),
    ("cross_sell_ids", getField product "cross_sell_ids"),
    ("date_created", getField product "date_created"),
    ("date_modified", getField product "date_modified")
  ]

/-- The inline per-variation transform of the `get_woo_product_variations`
handler (its meta loop is textually identical to the one in
`formatProductSummary`). -/
def formatVariationSummary (v : JValue) : JValue :=
  let meta := buildCustomMeta (getField v "meta_data")
  .obj [
    ("id", getField v "id"),
    ("sku", getField v "sku"),
    ("price", getField v "price"),
    ("regular_price", getField v "regular_price"),
    ("sale_price", getField v "sale_price"),
    ("on_sale", getField v "on_sale"),
    ("stock_status", getField v "stock_status"),
    ("stock_quantity", getField v "stock_quantity"),
    ("weight", getField v "weight"),
    ("dimensions", getField v "dimensions"),
    ("attributes", getField v "attributes"),
    ("image", getField v "image"),
    ("custom_meta", .obj meta),
    ("meta_data_all", getField v "meta_data")
  ]

/-- Minimal JSON string escaping (quote, backslash, newline); enough for the
string literals occurring in the modelled code. -/
def escapeJson (s : String) : String :=
  s.foldl (fun acc c =>
    if c = '"' then acc ++ "\\\""
    else if c = '\\' then acc ++ "\\\\"
    else if c = '\n' then acc ++ "\\n"
    else acc.push c) ""

mutual

/-- `JSON.stringify` on the modelled values: object fields bound to
`undefined` are dropped, `undefined` array elements serialize as `null`.
The source pretty-prints with a 2-space indent (`JSON.stringify(x, null, 2)`);
the inter-token whitespace is not modelled and no theorem depends on it. -/
def jsonStringify : JValue → String
  | .undefined => "undefined"
  | .null => "null"
  | .bool b => cond b "true" "false"
  | .num n => toString n
  | .str s => "\"" ++ escapeJson s ++ "\""
  | .arr xs => "[" ++ stringifyElems xs ++ "]"
  | .obj fs => "\x7b" ++ stringifyFields fs ++ "\x7d"

def stringifyElems : List JValue → String
  | [] => ""
  | x :: rest =>
    let s := match x with
      | .undefined => "null"
      | v => jsonStringify v
    let r := stringifyElems rest
    if r = "" then s else s ++ "," ++ r

def stringifyFields : List (String × JValue) → String
  | [] => ""
  | (k, v) :: rest =>
    match v with
    | .undefined => stringifyFields rest
    | v' =>
      let s := "\"" ++ escapeJson k ++ "\":" ++ jsonStringify v'
      let r := stringifyFields rest
      if r = "" then s else s ++ "," ++ r

end

/-- One entry of `toolResult.content`. -/
structure ContentItem where
  type : String
  text : String

structure ToolResult where
  content : List ContentItem
  isError : Bool

/-- The uniform return wrapper of every handler. -/
structure Envelope where
  toolResult : ToolResult

/-- A failure caught by a handler: the thrown error's `message` and the
optional HTTP status carried at `error.response?.status`. -/
structure WpError where
  message : String
  status : Option Nat

/-- The text of the single content entry of an envelope. -/
def envText (e : Envelope) : String :=
  match e.toolResult.content with
  | [c] => c.text
  | _ => ""

/-- A single call to the external HTTP collaborator. -/
structure Request where
  method : String
  path : String
  payload : Option JValue

-- Remediation hints appended by the catch blocks, verbatim from the source.

def wooAuthHint : String :=
  "\n\nAuthentication failed. WooCommerce REST API may require separate consumer key/secret. Set WOO_CONSUMER_KEY and WOO_CONSUMER_SECRET environment variables, or ensure your WordPress user has shop_manager/admin role."

def wooNotFoundHint : String :=
  "\n\nWooCommerce REST API not found. Ensure WooCommerce plugin is installed and activated."

def wooProduct404Hint : String :=
  "\n\nProduct not found or WooCommerce REST API not available."

def acfFields404Hint : String :=
  "\n\nACF REST API endpoint not found. Possible causes:\n1. ACF plugin is not installed or activated\n2. ACF REST API is not enabled (ACF → Settings → Enable REST API)\n3. The content type or ID does not exist\n\nAlternative: Use get_content with content_type parameter — ACF fields may appear in the \"acf\" key if ACF REST support is enabled globally."

def acfFieldsAuthHint : String :=
  "\n\nAuthentication/permission error. Ensure the WordPress user has permission to read ACF fields."

def acfUpdate404Hint : String :=
  "\n\nACF REST API endpoint not found. Ensure ACF plugin is installed and REST API is enabled."

def acfUpdateAuthHint : String :=
  "\n\nPermission denied. Ensure the WordPress user has edit permissions for this content."

def acfOptions404Hint : String :=
  "\n\nACF Options page REST endpoint not found. Ensure:\n1. ACF Pro is installed (Options pages require ACF Pro)\n2. Options page has been registered\n3. ACF REST API is enabled"

-- The catch-branch message of each handler, verbatim from its template
-- literal.

def listWooProductsErrorText (e : WpError) : String :=
  "Error listing WooCommerce products: " ++ e.message
    ++ (if e.status = some 401 then wooAuthHint else "")
    ++ (if e.status = some 404 then wooNotFoundHint else "")

def getWooProductErrorText (e : WpError) : String :=
  "Error getting WooCommerce product: " ++ e.message
    ++ (if e.status = some 404 then wooProduct404Hint else "")

def getWooProductVariationsErrorText (e : WpError) : String :=
  "Error getting product variations: " ++ e.message

def searchWooProductsErrorText (e : WpError) : String :=
  "Error searching WooCommerce products: " ++ e.message

def getAcfFieldsErrorText (e : WpError) : String :=
  let hint :=
    if e.status = some 404 then acfFields404Hint
    else if e.status = some 401 ∨ e.status = some 403 then acfFieldsAuthHint
    else ""
  "Error getting ACF fields: " ++ e.message ++ hint

def updateAcfFieldsErrorText (e : WpError) : String :=
  let hint :=
    if e.status = some 404 then acfUpdate404Hint
    else if e.status = some 401 ∨ e.status = some 403 then acfUpdateAuthHint
    else ""
  "Error updating ACF fields: " ++ e.message ++ hint

def getAcfOptionsErrorText (e : WpError) : String :=
  let hint := if e.status = some 404 then acfOptions404Hint else ""
  "Error getting ACF options: " ++ e.message ++ hint

def listAcfContentFieldsErrorText (e : WpError) : String :=
  "Error listing ACF content fields: " ++ e.message

-- Validated parameter shapes (from the zod schemas; enumerated string sets
-- are modelled as strings, the closed-set check happens before the handler).

structure ListWooProductsParams where
  page : Option Int
  per_page : Option Int
  search : Option String
  sku : Option String
  slug : Option String
  status : Option String
  category : Option String
  tag : Option String
  type : Option String
  featured : Option Bool
  on_sale : Option Bool
  min_price : Option String
  max_price : Option String
  stock_status : Option String
  orderby : Option String
  order : Option String

structure GetWooProductParams where
  id : Int

structure GetWooProductVariationsParams where
  product_id : Int
  page : Option Int
  per_page : Option Int

structure SearchWooProductsParams where
  search : String
  per_page : Option Int

structure GetAcfFieldsParams where
  content_type : String
  id : Int

structure UpdateAcfFieldsParams where
  content_type : String
  id : Int
  fields : List (String × JValue)

structure GetAcfOptionsParams where
  field_name : Option String

structure ListAcfContentFieldsParams where
  content_type : String
  per_page : Option Int
  page : Option Int

-- Per-handler response normalization steps (the `Array.isArray(response) ?
-- response.map(...) : response` ternaries).

def listWooNormalize (response : JValue) : JValue :=
  match response with
  | .arr xs => .arr (xs.map formatProductSummary)
  | v => v

def searchWooNormalize (response : JValue) : JValue :=
  match response with
  | .arr xs => .arr (xs.map formatProductSummary)
  | v => v

def variationsNormalize (response : JValue) : JValue :=
  match response with
  | .arr xs => .arr (xs.map formatVariationSummary)
  | v => v

/-- The per-item projection of `list_acf_content_fields`
(`{ id: item.id, acf: item.acf || item }`). -/
def listAcfItem (item : JValue) : JValue :=
  .obj [("id", getField item "id"), ("acf", jsOr (getField item "acf") item)]

def listAcfNormalize (response : JValue) : JValue :=
  match response with
  | .arr xs => .arr (xs.map listAcfItem)
  | v => v

/-- `endpointMap` of src/tools/acf.ts. -/
def acfEndpointMap : List (String × String) := [("post", "posts"), ("page", "pages")]

/-- `getAcfEndpointBase`: `endpointMap[contentType] || contentType`. -/
def getAcfEndpointBase (contentType : String) : String :=
  match acfEndpointMap.find? (fun p => p.1 == contentType) with
  | some p => p.2
  | none => contentType

-- Request builders: the method, path and query/body each handler hands to
-- the single `makeWordPressGenericRequest` call.

/-- The `queryParams` object built by `get_woo_product_variations`
(`if (params.page) queryParams.page = params.page`, then `per_page`). -/
def variationsQuery (params : GetWooProductVariationsParams) : List (String × JValue) :=
  (match params.page with
   | some n => if n ≠ 0 then [("page", JValue.num n)] else []
   | none => [])
  ++ (match params.per_page with
   | some n => if n ≠ 0 then [("per_page", JValue.num n)] else []
   | none => [])

def get_woo_product_variations_request (params : GetWooProductVariationsParams) : Request :=
  { method := "GET"
    path := "wc/v3/products/" ++ toString params.product_id ++ "/variations"
    payload := some (.obj (variationsQuery params)) }

/-- The `queryParams` object built by `list_acf_content_fields`
(`per_page: params.per_page || 10, page: params.page || 1`). -/
def listAcfQuery (params : ListAcfContentFieldsParams) : List (String × JValue) :=
  [("per_page", JValue.num (jsOrInt params.per_page 10)),
   ("page", JValue.num (jsOrInt params.page 1))]

def list_acf_content_fields_request (params : ListAcfContentFieldsParams) : Request :=
  { method := "GET"
    path := "acf/v3/" ++ getAcfEndpointBase params.content_type
    payload := some (.obj (listAcfQuery params)) }

def update_acf_fields_request (params : UpdateAcfFieldsParams) : Request :=
  { method := "PUT"
    path := "acf/v3/" ++ getAcfEndpointBase params.content_type ++ "/" ++ toString params.id
    payload := some (.obj [("acf", .obj params.fields)]) }

-- Handlers, as functions of the validated parameters and the outcome of the
-- single awaited HTTP call.  The fire-and-forget `logToFile` side channel
-- never affects the returned envelope and is not modelled.

def list_woo_products (params : ListWooProductsParams)
    (resp : Except WpError JValue) : Envelope :=
  match resp with
  | .ok response =>
    ⟨⟨[⟨"text", jsonStringify (listWooNormalize response)⟩], false⟩⟩
  | .error e =>
    ⟨⟨[⟨"text", listWooProductsErrorText e⟩], true⟩⟩

def get_woo_product (params : GetWooProductParams)
    (resp : Except WpError JValue) : Envelope :=
  match resp with
  | .ok response =>
    ⟨⟨[⟨"text", jsonStringify (formatProductSummary response)⟩], false⟩⟩
  | .error e =>
    ⟨⟨[⟨"text", getWooProductErrorText e⟩], true⟩⟩

def get_woo_product_variations (params : GetWooProductVariationsParams)
    (resp : Except WpError JValue) : Envelope :=
  match resp with
  | .ok response =>
    let variations := variationsNormalize response
    ⟨⟨[⟨"text", jsonStringify (.obj [
          ("product_id", .num params.product_id),
          ("variations_count",
            .num (match variations with | .arr xs => (xs.length : Int) | _ => 0)),
          ("variations", variations)])⟩], false⟩⟩
  | .error e =>
    ⟨⟨[⟨"text", getWooProductVariationsErrorText e⟩], true⟩⟩

def search_woo_products (params : SearchWooProductsParams)
    (resp : Except WpError JValue) : Envelope :=
  match resp with
  | .ok response =>
    let products := searchWooNormalize response
    ⟨⟨[⟨"text", jsonStringify (.obj [
          ("search_term", .str params.search),
          ("results_count",
            .num (match products with | .arr xs => (xs.length : Int) | _ => 0)),
          ("products", products)])⟩], false⟩⟩
  | .error e =>
    ⟨⟨[⟨"text", searchWooProductsErrorText e⟩], true⟩⟩

def get_acf_fields (params : GetAcfFieldsParams)
    (resp : Except WpError JValue) : Envelope :=
  match resp with
  | .ok response =>
    ⟨⟨[⟨"text", jsonStringify (.obj [
          ("content_type", .str params.content_type),
          ("content_id", .num params.id),
          ("acf_fields", jsOr (getField response "acf") response)])⟩], false⟩⟩
  | .error e =>
    ⟨⟨[⟨"text", getAcfFieldsErrorText e⟩], true⟩⟩

def update_acf_fields (params : UpdateAcfFieldsParams)
    (resp : Except WpError JValue) : Envelope :=
  match resp with
  | .ok response =>
    ⟨⟨[⟨"text", jsonStringify (.obj [
          ("content_type", .str params.content_type),
          ("content_id", .num params.id),
          ("updated", .bool true),
          ("acf_fields", jsOr (getField response "acf") response)])⟩], false⟩⟩
  | .error e =>
    ⟨⟨[⟨"text", updateAcfFieldsErrorText e⟩], true⟩⟩

def get_acf_options (params : GetAcfOptionsParams)
    (resp : Except WpError JValue) : Envelope :=
  match resp with
  | .ok response =>
    ⟨⟨[⟨"text", jsonStringify (.obj [
          ("field_name", .str (jsOrStr params.field_name "(all options)")),
          ("options", jsOr (getField response "acf") response)])⟩], false⟩⟩
  | .error e =>
    ⟨⟨[⟨"text", getAcfOptionsErrorText e⟩], true⟩⟩

def list_acf_content_fields (params : ListAcfContentFieldsParams)
    (resp : Except WpError JValue) : Envelope :=
  match resp with
  | .ok response =>
    let items := listAcfNormalize response
    ⟨⟨[⟨"text", jsonStringify (.obj [
          ("content_type", .str params.content_type),
          ("page", .num (jsOrInt params.page 1)),
          ("per_page", .num (jsOrInt params.per_page 10)),
          ("items_count",
            .num (match items with | .arr xs => (xs.length : Int) | _ => 0)),
          ("items", items)])⟩], false⟩⟩
  | .error e =>
    ⟨⟨[⟨"text", listAcfContentFieldsErrorText e⟩], true⟩⟩

-- Statement-side helpers used by the theorems below.

/-- True exactly when the handler caught a thrown failure. -/
def caughtError : Except WpError JValue → Bool
  | .error _ => true
  | .ok _ => false

/-- `sub` occurs as a contiguous substring of `t`. -/
def containsText (t sub : String) : Prop := List.IsInfix sub.data t.data

/-- The fixed projection list of `ProductSummary`, in source order. -/
def productProjection : List String :=
  ["id", "name", "slug", "permalink", "type", "status", "sku", "price",
   "regular_price", "sale_price", "price_html", "on_sale", "description",
   "short_description", "weight", "dimensions", "stock_status",
   "stock_quantity", "manage_stock", "categories", "tags", "images",
   "attributes", "variations", "custom_meta", "meta_data_all", "acf",
   "average_rating", "rating_count", "total_sales", "related_ids",
   "upsell_ids", "cross_sell_ids", "date_created", "date_modified"]

/-- The projected fields that are copied from the upstream object unchanged
(everything except the computed `images`, `custom_meta`, `meta_data_all` and
`acf` bindings). -/
def passthroughFields : List String :=
  ["id", "name", "slug", "permalink", "type", "status", "sku", "price",
   "regular_price", "sale_price", "price_html", "on_sale", "description",
   "short_description", "weight", "dimensions", "stock_status",
   "stock_quantity", "manage_stock", "categories", "tags",
   "attributes", "variations",
   "average_rating", "rating_count", "total_sales", "related_ids",
   "upsell_ids", "cross_sell_ids", "date_created", "date_modified"]

/-- The value of the last occurrence of key `k` that passes the meta filter,
in list order (statement-side description of the duplicate-key behaviour). -/
def lastMetaValue (ms : List JValue) (k : String) : Option JValue :=
  ((ms.filterMap metaFilter).reverse.find? (fun p => p.1 == k)).map (fun p => p.2)

/-- A raw `{key, value}` meta entry. -/
def mkMetaEntry (k : String) (v : JValue) : JValue :=
  .obj [("key", .str k), ("value", v)]

/-- The raw product of the end-to-end scenario in the specification. -/
def soapProduct : JValue :=
  .obj [("id", .num 5), ("name", .str "Soap"),
        ("meta_data", .arr [mkMetaEntry "_internal" (.str "x"),
                            mkMetaEntry "volume" (.str "100ml")])]

-- Helper lemmas about the object-assignment and meta-accumulation machinery.

lemma mem_objSet {fs : List (String × JValue)} {k : String} {v : JValue}
    {p : String × JValue} (h : p ∈ objSet fs k v) : p ∈ fs ∨ p.1 = k := by
  unfold objSet at h
  split at h
  · rcases List.mem_map.mp h with ⟨q, hq, he⟩
    by_cases hqk : (q.1 == k) = true
    · right
      rw [← he]
      simp [hqk]
    · left
      rw [← he]
      simp only [hqk, if_false, Bool.false_eq_true, if_neg]
      exact hq
  · rcases List.mem_append.mp h with h | h
    · exact .inl h
    · right
      have := List.mem_singleton.mp h
      rw [this]

lemma metaFilter_some {m : JValue} {s : String} {v : JValue}
    (h : metaFilter m = some (s, v)) :
    getField m "key" = .str s ∧ s ≠ "" ∧ strStartsWith s "_" = false := by
  unfold metaFilter at h
  split at h
  case h_1 s' heq =>
    split at h
    case isTrue hc =>
      simp only [Option.some.injEq, Prod.mk.injEq] at h
      obtain ⟨rfl, -⟩ := h
      exact ⟨heq, hc.1, hc.2⟩
    case isFalse => cases h
  case h_2 => cases h

lemma metaFold_origin : ∀ (ms : List JValue) (acc : List (String × JValue))
    (p : String × JValue), p ∈ ms.foldl metaStep acc →
    p ∈ acc ∨ ∃ m ∈ ms, getField m "key" = .str p.1 ∧ p.1 ≠ "" ∧
      strStartsWith p.1 "_" = false
  | [], _, _, h => .inl h
  | m :: ms, acc, p, h => by
    rcases metaFold_origin ms (metaStep acc m) p h with h1 | ⟨m', hm', hk⟩
    · unfold metaStep at h1
      rcases hf : metaFilter m with - | ⟨s, v⟩ <;> rw [hf] at h1
      · exact .inl h1
      · rcases mem_objSet h1 with h2 | h2
        · exact .inl h2
        · refine .inr ⟨m, List.mem_cons_self .., ?_⟩
          rw [h2]
          exact metaFilter_some hf
    · exact .inr ⟨m', List.mem_cons_of_mem _ hm', hk⟩

lemma buildCustomMeta_origin {md : JValue} {p : String × JValue}
    (hp : p ∈ buildCustomMeta md) :
    ∃ m ∈ arrElems md, getField m "key" = .str p.1 ∧ p.1 ≠ "" ∧
      strStartsWith p.1 "_" = false := by
  unfold buildCustomMeta at hp
  split at hp
  case h_1 ms =>
    rcases metaFold_origin ms [] p hp with h | h
    · cases h
    · exact h
  case h_2 => cases hp

lemma find_map_set_same (k : String) (v : JValue) :
    ∀ fs : List (String × JValue), fs.any (fun p => p.1 == k) = true →
      (fs.map (fun p => if p.1 == k then (k, v) else p)).find?
        (fun p => p.1 == k) = some (k, v)
  | [], h => by cases h
  | q :: fs, h => by
    by_cases hq : (q.1 == k) = true
    · simp only [List.map_cons, if_pos hq]
      exact List.find?_cons_of_pos _ (by simp)
    · have h' : fs.any (fun p => p.1 == k) = true := by
        simpa [List.any_cons, hq] using h
      simp only [List.map_cons, if_neg hq]
      rw [List.find?_cons_of_neg _ (by simp [hq])]
      exact find_map_set_same k v fs h'

lemma find_map_set_ne (k : String) (v : JValue) (k' : String) (hne : k' ≠ k) :
    ∀ fs : List (String × JValue),
      (fs.map (fun p => if p.1 == k then (k, v) else p)).find?
        (fun p => p.1 == k') = fs.find? (fun p => p.1 == k')
  | [] => rfl
  | q :: fs => by
    have hkk' : (k == k') = false := by
      simp only [beq_eq_false_iff_ne, ne_eq]
      exact fun h => hne h.symm
    by_cases hq : (q.1 == k) = true
    · have hqk : q.1 = k := by simpa using hq
      have hq' : (q.1 == k') = false := by rw [hqk]; exact hkk'
      simp only [List.map_cons, if_pos hq, List.find?, hkk', hq']
      exact find_map_set_ne k v k' hne fs
    · simp only [List.map_cons, if_neg hq, List.find?]
      cases hq' : (q.1 == k') with
      | true => rfl
      | false => exact find_map_set_ne k v k' hne fs

lemma objGet_objSet (fs : List (String × JValue)) (k : String) (v : JValue)
    (k' : String) :
    objGet (objSet fs k v) k' = if k' = k then some v else objGet fs k' := by
  unfold objGet objSet
  by_cases ha : fs.any (fun p => p.1 == k) = true
  · rw [if_pos ha]
    by_cases hk : k' = k
    · subst hk
      rw [if_pos rfl, find_map_set_same k' v fs ha]
      rfl
    · rw [if_neg hk, find_map_set_ne k v k' hk fs]
  · rw [if_neg ha, List.find?_append]
    have hnone : fs.find? (fun p => p.1 == k) = none :=
      List.find?_eq_none.mpr (by
        intro x hx hpx
        exact ha (List.any_eq_true.mpr ⟨x, hx, hpx⟩))
    by_cases hk : k' = k
    · subst hk
      rw [if_pos rfl, hnone]
      simp
    · rw [if_neg hk]
      have hkk' : (k == k') = false := by
        simp only [beq_eq_false_iff_ne, ne_eq]
        exact fun h => hk h.symm
      have : ([(k, v)].find? (fun p => p.1 == k')) = none := by
        simp only [List.find?, hkk']
      rw [this]
      simp

lemma metaFold_objGet (ms : List JValue) (k : String) :
    objGet (ms.foldl metaStep []) k = lastMetaValue ms k := by
  induction ms using List.reverseRecOn with
  | nil => rfl
  | append_singleton ms m ih =>
    rw [List.foldl_append, List.foldl_cons, List.foldl_nil]
    unfold lastMetaValue
    rw [List.filterMap_append]
    unfold metaStep
    rcases hf : metaFilter m with - | ⟨s, v⟩
    · simp only [List.filterMap_cons, hf, List.filterMap_nil, List.append_nil]
      exact ih
    · simp only [List.filterMap_cons, hf, List.filterMap_nil, List.reverse_append,
        List.reverse_cons, List.reverse_nil, List.nil_append, List.cons_append,
        List.find?]
      rw [objGet_objSet]
      by_cases hk : k = s
      · subst hk
        simp
      · have : (s == k) = false := by
          simp only [beq_eq_false_iff_ne, ne_eq]
          exact fun h => hk h.symm
        simp only [this, if_neg hk]
        exact ih

lemma customMeta_format (product : JValue) :
    getField (formatProductSummary product) "custom_meta" =
      .obj (buildCustomMeta (getField product "meta_data")) := rfl

lemma metaDataAll_format (product : JValue) :
    getField (formatProductSummary product) "meta_data_all" =
      getField product "meta_data" := rfl

lemma customMeta_variation (v : JValue) :
    getField (formatVariationSummary v) "custom_meta" =
      .obj (buildCustomMeta (getField v "meta_data")) := rfl

lemma metaDataAll_variation (v : JValue) :
    getField (formatVariationSummary v) "meta_data_all" =
      getField v "meta_data" := rfl

/-- C1: for every meta list processed by `formatProductSummary` or by the
per-variation transform of `get_woo_product_variations`, every key of the
resulting `custom_meta` map is the key of some entry of the `meta_data_all`
list of the same result, and no key of `custom_meta` starts with the reserved
prefix character. -/
theorem c1_custom_meta_sound :
    (∀ product p, (∀ m ∈ arrElems (getField product "meta_data"), keyWf m = true) →
      p ∈ objFields (getField (formatProductSummary product) "custom_meta") →
      (∃ m ∈ arrElems (getField (formatProductSummary product) "meta_data_all"),
        getField m "key" = .str p.1) ∧ strStartsWith p.1 "_" = false) ∧
    (∀ v p, (∀ m ∈ arrElems (getField v "meta_data"), keyWf m = true) →
      p ∈ objFields (getField (formatVariationSummary v) "custom_meta") →
      (∃ m ∈ arrElems (getField (formatVariationSummary v) "meta_data_all"),
        getField m "key" = .str p.1) ∧ strStartsWith p.1 "_" = false) := by
  constructor
  · intro product p _ hp
    rw [customMeta_format] at hp
    rw [metaDataAll_format]
    obtain ⟨m, hm, hk, -, hpre⟩ := buildCustomMeta_origin hp
    exact ⟨⟨m, hm, hk⟩, hpre⟩
  · intro v p _ hp
    rw [customMeta_variation] at hp
    rw [metaDataAll_variation]
    obtain ⟨m, hm, hk, -, hpre⟩ := buildCustomMeta_origin hp
    exact ⟨⟨m, hm, hk⟩, hpre⟩

/-- C1 witness: the end-to-end soap example of the specification, at the
`custom_meta` entry `("volume", "100ml")`. -/
theorem c1_witness :
    (∃ m ∈ arrElems (getField (formatProductSummary soapProduct) "meta_data_all"),
      getField m "key" = JValue.str "volume") ∧
    strStartsWith "volume" "_" = false :=
  c1_custom_meta_sound.1 soapProduct ("volume", .str "100ml")
    (by decide) (by exact List.Mem.head _)

/-- C3 counterexample: in `[{key:"color",value:"red"}, {key:"color",value:"blue"}]`
the later entry overwrites the earlier one, so `custom_meta.color` is
`"blue"`, not the first-occurrence value `"red"` the claim predicts. -/
theorem c3_counterexample :
    objGet (buildCustomMeta (.arr [mkMetaEntry "color" (.str "red"),
      mkMetaEntry "color" (.str "blue")])) "color" = some (.str "blue") ∧
    JValue.str "blue" ≠ JValue.str "red" := by
  refine ⟨rfl, ?_⟩
  intro h
  injection h with h'
  exact absurd h' (by decide)

/-- C3 amended: for every meta list, `custom_meta` maps each contributing key
to the value of its last occurrence in list order (later duplicates overwrite
earlier ones). -/
theorem c3_last_occurrence_wins (ms : List JValue) (k : String)
    (hwf : ∀ m ∈ ms, keyWf m = true) :
    objGet (buildCustomMeta (.arr ms)) k = lastMetaValue ms k :=
  metaFold_objGet ms k

/-- C3 witness: a concrete duplicate-key meta list. -/
theorem c3_witness :
    objGet (buildCustomMeta (.arr [mkMetaEntry "size" (.str "S"),
      mkMetaEntry "size" (.str "M")])) "size" =
      lastMetaValue [mkMetaEntry "size" (.str "S"),
        mkMetaEntry "size" (.str "M")] "size" :=
  c3_last_occurrence_wins _ "size" (by decide)

/-- C10: a meta entry whose key is absent, empty or otherwise falsy
contributes nothing to `custom_meta` (even though such a key does not start
with the reserved prefix character), while the entry remains in the
unfiltered `meta_data_all` list of the normalized result. -/
theorem c10_falsy_key_excluded :
    (∀ acc m, (getField m "key").truthy = false → metaStep acc m = acc) ∧
    (∀ product ms, getField product "meta_data" = .arr ms →
      getField (formatProductSummary product) "meta_data_all" = .arr ms) ∧
    (∀ v ms, getField v "meta_data" = .arr ms →
      getField (formatVariationSummary v) "meta_data_all" = .arr ms) := by
  refine ⟨?_, ?_, ?_⟩
  · intro acc m h
    unfold metaStep metaFilter
    cases hk : getField m "key" with
    | str s =>
      rw [hk] at h
      simp only [JValue.truthy, decide_eq_false_iff_not, not_not] at h
      subst h
      simp
    | undefined => rfl
    | null => rfl
    | bool b => rfl
    | num n => rfl
    | arr xs => rfl
    | obj fs => rfl
  · intro product ms h
    rw [metaDataAll_format, h]
  · intro v ms h
    rw [metaDataAll_variation, h]

/-- C10 witness: an entry with the empty (falsy) key is dropped from the
meta accumulation, and the soap example's `meta_data_all` carries the full
unfiltered list. -/
theorem c10_witness :
    metaStep [] (.obj [("key", .str ""), ("value", .str "v")]) = [] ∧
    getField (formatProductSummary soapProduct) "meta_data_all" =
      .arr [mkMetaEntry "_internal" (.str "x"),
        mkMetaEntry "volume" (.str "100ml")] :=
  ⟨c10_falsy_key_excluded.1 [] (.obj [("key", .str ""), ("value", .str "v")])
      (by decide),
   c10_falsy_key_excluded.2.1 soapProduct _ rfl⟩

/-- C2: every handler, on every outcome of its single HTTP call, returns an
envelope with exactly one entry in `toolResult.content`, and `isError` is
true exactly when the handler caught a thrown failure. -/
theorem c2_envelope_shape :
    (∀ p r, (list_woo_products p r).toolResult.content.length = 1 ∧
      (list_woo_products p r).toolResult.isError = caughtError r) ∧
    (∀ p r, (get_woo_product p r).toolResult.content.length = 1 ∧
      (get_woo_product p r).toolResult.isError = caughtError r) ∧
    (∀ p r, (get_woo_product_variations p r).toolResult.content.length = 1 ∧
      (get_woo_product_variations p r).toolResult.isError = caughtError r) ∧
    (∀ p r, (search_woo_products p r).toolResult.content.length = 1 ∧
      (search_woo_products p r).toolResult.isError = caughtError r) ∧
    (∀ p r, (get_acf_fields p r).toolResult.content.length = 1 ∧
      (get_acf_fields p r).toolResult.isError = caughtError r) ∧
    (∀ p r, (update_acf_fields p r).toolResult.content.length = 1 ∧
      (update_acf_fields p r).toolResult.isError = caughtError r) ∧
    (∀ p r, (get_acf_options p r).toolResult.content.length = 1 ∧
      (get_acf_options p r).toolResult.isError = caughtError r) ∧
    (∀ p r, (list_acf_content_fields p r).toolResult.content.length = 1 ∧
      (list_acf_content_fields p r).toolResult.isError = caughtError r) := by
  refine ⟨?_, ?_, ?_, ?_, ?_, ?_, ?_, ?_⟩ <;>
    (intro p r; cases r <;> exact ⟨rfl, rfl⟩)

/-- C6: in every handler, a caught failure carrying no HTTP status code
produces an envelope whose message text is exactly the handler's action
prefix followed by the original message, with no appended hint. -/
theorem c6_no_status_plain_message :
    (∀ p m, envText (list_woo_products p (.error ⟨m, none⟩)) =
      "Error listing WooCommerce products: " ++ m) ∧
    (∀ p m, envText (get_woo_product p (.error ⟨m, none⟩)) =
      "Error getting WooCommerce product: " ++ m) ∧
    (∀ p m, envText (get_woo_product_variations p (.error ⟨m, none⟩)) =
      "Error getting product variations: " ++ m) ∧
    (∀ p m, envText (search_woo_products p (.error ⟨m, none⟩)) =
      "Error searching WooCommerce products: " ++ m) ∧
    (∀ p m, envText (get_acf_fields p (.error ⟨m, none⟩)) =
      "Error getting ACF fields: " ++ m) ∧
    (∀ p m, envText (update_acf_fields p (.error ⟨m, none⟩)) =
      "Error updating ACF fields: " ++ m) ∧
    (∀ p m, envText (get_acf_options p (.error ⟨m, none⟩)) =
      "Error getting ACF options: " ++ m) ∧
    (∀ p m, envText (list_acf_content_fields p (.error ⟨m, none⟩)) =
      "Error listing ACF content fields: " ++ m) := by
  refine ⟨?_, ?_, ?_, ?_, ?_, ?_, ?_, ?_⟩ <;> intro p m <;>
    simp [list_woo_products, get_woo_product, get_woo_product_variations,
      search_woo_products, get_acf_fields, update_acf_fields, get_acf_options,
      list_acf_content_fields, envText, listWooProductsErrorText,
      getWooProductErrorText, getWooProductVariationsErrorText,
      searchWooProductsErrorText, getAcfFieldsErrorText,
      updateAcfFieldsErrorText, getAcfOptionsErrorText,
      listAcfContentFieldsErrorText]

lemma containsText_append_mid (a b c : String) : containsText (a ++ b ++ c) b := by
  unfold containsText
  refine ⟨a.data, c.data, ?_⟩
  simp [String.data_append]

lemma containsText_append_right (a b : String) : containsText (a ++ b) b := by
  have := containsText_append_mid a b ""
  simpa using this

/-- C4 counterexample: the `get_woo_product_variations` handler appends no
hint at all on a caught 404 failure, so its message is the bare action text,
contradicting the claim that every handler adds a family-specific 404 hint. -/
theorem c4_counterexample :
    envText (get_woo_product_variations ⟨42, none, none⟩
      (.error ⟨"boom", some 404⟩)) = "Error getting product variations: boom" ∧
    (get_woo_product_variations ⟨42, none, none⟩
      (.error ⟨"boom", some 404⟩)).toolResult.isError = true := ⟨rfl, rfl⟩

/-- C4 amended: the handlers that define a 404 hint (`list_woo_products`,
`get_woo_product`, `get_acf_fields`, `update_acf_fields`, `get_acf_options`)
append their family-specific 404 hint on a caught 404, and the handlers that
define a credential hint (`list_woo_products`, `get_acf_fields`,
`update_acf_fields`) append it on a caught 401; `get_woo_product` and
`get_acf_options` append no hint on 401, and `get_woo_product_variations`,
`search_woo_products` and `list_acf_content_fields` append no hint on any
status. -/
theorem c4_status_hints :
    (∀ p m, containsText (envText (list_woo_products p (.error ⟨m, some 404⟩)))
      wooNotFoundHint) ∧
    (∀ p m, containsText (envText (list_woo_products p (.error ⟨m, some 401⟩)))
      wooAuthHint) ∧
    (∀ p m, containsText (envText (get_woo_product p (.error ⟨m, some 404⟩)))
      wooProduct404Hint) ∧
    (∀ p m, envText (get_woo_product p (.error ⟨m, some 401⟩)) =
      "Error getting WooCommerce product: " ++ m) ∧
    (∀ p m, containsText (envText (get_acf_fields p (.error ⟨m, some 404⟩)))
      acfFields404Hint) ∧
    (∀ p m, containsText (envText (get_acf_fields p (.error ⟨m, some 401⟩)))
      acfFieldsAuthHint) ∧
    (∀ p m, containsText (envText (update_acf_fields p (.error ⟨m, some 404⟩)))
      acfUpdate404Hint) ∧
    (∀ p m, containsText (envText (update_acf_fields p (.error ⟨m, some 401⟩)))
      acfUpdateAuthHint) ∧
    (∀ p m, containsText (envText (get_acf_options p (.error ⟨m, some 404⟩)))
      acfOptions404Hint) ∧
    (∀ p m, envText (get_acf_options p (.error ⟨m, some 401⟩)) =
      "Error getting ACF options: " ++ m) ∧
    (∀ p m s, envText (get_woo_product_variations p (.error ⟨m, s⟩)) =
      "Error getting product variations: " ++ m) ∧
    (∀ p m s, envText (search_woo_products p (.error ⟨m, s⟩)) =
      "Error searching WooCommerce products: " ++ m) ∧
    (∀ p m s, envText (list_acf_content_fields p (.error ⟨m, s⟩)) =
      "Error listing ACF content fields: " ++ m) := by
  refine ⟨?_, ?_, ?_, ?_, ?_, ?_, ?_, ?_, ?_, ?_, ?_, ?_, ?_⟩
  · intro p m
    have h : envText (list_woo_products p (.error ⟨m, some 404⟩)) =
        "Error listing WooCommerce products: " ++ m ++ "" ++ wooNotFoundHint := rfl
    rw [h]
    exact containsText_append_right _ _
  · intro p m
    have h : envText (list_woo_products p (.error ⟨m, some 401⟩)) =
        "Error listing WooCommerce products: " ++ m ++ wooAuthHint ++ "" := rfl
    rw [h]
    exact containsText_append_mid _ _ _
  · intro p m
    have h : envText (get_woo_product p (.error ⟨m, some 404⟩)) =
        "Error getting WooCommerce product: " ++ m ++ wooProduct404Hint := rfl
    rw [h]
    exact containsText_append_right _ _
  · intro p m
    have h : envText (get_woo_product p (.error ⟨m, some 401⟩)) =
        "Error getting WooCommerce product: " ++ m ++ "" := rfl
    rw [h]
    simp
  · intro p m
    have h : envText (get_acf_fields p (.error ⟨m, some 404⟩)) =
        "Error getting ACF fields: " ++ m ++ acfFields404Hint := rfl
    rw [h]
    exact containsText_append_right _ _
  · intro p m
    have h : envText (get_acf_fields p (.error ⟨m, some 401⟩)) =
        "Error getting ACF fields: " ++ m ++ acfFieldsAuthHint := rfl
    rw [h]
    exact containsText_append_right _ _
  · intro p m
    have h : envText (update_acf_fields p (.error ⟨m, some 404⟩)) =
        "Error updating ACF fields: " ++ m ++ acfUpdate404Hint := rfl
    rw [h]
    exact containsText_append_right _ _
  · intro p m
    have h : envText (update_acf_fields p (.error ⟨m, some 401⟩)) =
        "Error updating ACF fields: " ++ m ++ acfUpdateAuthHint := rfl
    rw [h]
    exact containsText_append_right _ _
  · intro p m
    have h : envText (get_acf_options p (.error ⟨m, some 404⟩)) =
        "Error getting ACF options: " ++ m ++ acfOptions404Hint := rfl
    rw [h]
    exact containsText_append_right _ _
  · intro p m
    have h : envText (get_acf_options p (.error ⟨m, some 401⟩)) =
        "Error getting ACF options: " ++ m ++ "" := rfl
    rw [h]
    simp
  · intro p m s
    rfl
  · intro p m s
    rfl
  · intro p m s
    rfl

/-- C5 counterexample: for an upstream product missing the `sku` field, the
normalized result binds `sku` to the absence marker `undefined` (which
`JSON.stringify` then drops), not to a defined placeholder value. -/
theorem c5_counterexample :
    getField (formatProductSummary (.obj [])) "sku" = .undefined := rfl

/-- C5 amended: the normalized result of `formatProductSummary` binds exactly
the fields of the fixed projection list; the passthrough fields carry the
upstream value unchanged (so an absent upstream field is bound to
`undefined`, not to a defined placeholder), and only `acf` receives the
placeholder `null` when absent upstream. -/
theorem c5_projection :
    (∀ product, objKeys (formatProductSummary product) = productProjection) ∧
    (∀ product f, f ∈ passthroughFields →
      getField (formatProductSummary product) f = getField product f) ∧
    (∀ product, getField product "acf" = .undefined →
      getField (formatProductSummary product) "acf" = .null) := by
  refine ⟨fun product => rfl, ?_, ?_⟩
  · intro product f hf
    fin_cases hf <;> rfl
  · intro product h
    have hacf : getField (formatProductSummary product) "acf" =
        jsOr (getField product "acf") .null := rfl
    rw [hacf, h]
    rfl

/-- C5 witness: a passthrough field on the soap example, and the `acf`
placeholder on a product without an upstream `acf` field. -/
theorem c5_witness :
    getField (formatProductSummary soapProduct) "name" =
      getField soapProduct "name" ∧
    getField (formatProductSummary soapProduct) "acf" = .null :=
  ⟨c5_projection.2.1 soapProduct "name" (by decide),
   c5_projection.2.2 soapProduct rfl⟩

/-- C7 counterexample: calling `list_acf_content_fields` with no optional
filters still sends `per_page=10` and `page=1` (the handler's defaults), so
the request does not carry exactly the required parameters (it has no
required query parameters at all). -/
theorem c7_counterexample :
    listAcfQuery ⟨"post", none, none⟩ =
      [("per_page", JValue.num 10), ("page", JValue.num 1)] ∧
    [("per_page", JValue.num 10), ("page", JValue.num 1)] ≠
      ([] : List (String × JValue)) := by
  refine ⟨rfl, ?_⟩
  intro h
  cases h

/-- C7 amended: for `get_woo_product_variations`, a provided non-zero `page`
or `per_page` is forwarded verbatim, an omitted (or zero, hence falsy) one is
absent, and a call with no optional filters sends an empty query; for
`list_acf_content_fields`, provided non-zero filters are forwarded verbatim,
but omitted (or zero) `per_page` and `page` are sent with the defaults 10 and
1, so a call with no optional filters carries exactly those two defaults. -/
theorem c7_query_construction :
    (∀ pid, variationsQuery ⟨pid, none, none⟩ = []) ∧
    (∀ pid a b, a ≠ 0 → b ≠ 0 → variationsQuery ⟨pid, some a, some b⟩ =
      [("page", JValue.num a), ("per_page", JValue.num b)]) ∧
    (∀ pid a, a ≠ 0 → variationsQuery ⟨pid, some a, none⟩ =
      [("page", JValue.num a)]) ∧
    (∀ pid b, b ≠ 0 → variationsQuery ⟨pid, none, some b⟩ =
      [("per_page", JValue.num b)]) ∧
    (∀ pid b, variationsQuery ⟨pid, some 0, b⟩ = variationsQuery ⟨pid, none, b⟩) ∧
    (∀ ct a b, a ≠ 0 → b ≠ 0 → listAcfQuery ⟨ct, some b, some a⟩ =
      [("per_page", JValue.num b), ("page", JValue.num a)]) ∧
    (∀ ct, listAcfQuery ⟨ct, none, none⟩ =
      [("per_page", JValue.num 10), ("page", JValue.num 1)]) := by
  refine ⟨fun pid => rfl, ?_, ?_, ?_, ?_, ?_, fun ct => rfl⟩
  · intro pid a b ha hb
    simp [variationsQuery, ha, hb]
  · intro pid a ha
    simp [variationsQuery, ha]
  · intro pid b hb
    simp [variationsQuery, hb]
  · intro pid b
    simp [variationsQuery]
  · intro ct a b ha hb
    simp [listAcfQuery, jsOrInt, ha, hb]

/-- C7 witness: concrete provided and omitted filters. -/
theorem c7_witness :
    variationsQuery ⟨7, some 2, some 50⟩ =
      [("page", JValue.num 2), ("per_page", JValue.num 50)] ∧
    listAcfQuery ⟨"product", some 25, some 3⟩ =
      [("per_page", JValue.num 25), ("page", JValue.num 3)] :=
  ⟨c7_query_construction.2.1 7 2 50 (by decide) (by decide),
   c7_query_construction.2.2.2.2.2.1 "product" 3 25 (by decide) (by decide)⟩

/-- C8: `update_acf_fields` issues a single PUT request to the namespaced
path `acf/v3/` followed by the mapped base and the id, where the base maps
`post` to `posts` and `page` to `pages` and passes any other content type
through unchanged, and the caller's field map is the entire body under the
single wrapping key `acf`. -/
theorem c8_update_request :
    (∀ p : UpdateAcfFieldsParams,
      (update_acf_fields_request p).method = "PUT" ∧
      (update_acf_fields_request p).path =
        "acf/v3/" ++ getAcfEndpointBase p.content_type ++ "/" ++ toString p.id ∧
      (update_acf_fields_request p).payload =
        some (.obj [("acf", .obj p.fields)])) ∧
    getAcfEndpointBase "post" = "posts" ∧
    getAcfEndpointBase "page" = "pages" ∧
    (∀ ct, ct ≠ "post" → ct ≠ "page" → getAcfEndpointBase ct = ct) := by
  refine ⟨fun p => ⟨rfl, rfl, rfl⟩, rfl, rfl, ?_⟩
  intro ct h1 h2
  unfold getAcfEndpointBase acfEndpointMap
  have e1 : (("post", "posts").1 == ct) = false := by
    simp only [beq_eq_false_iff_ne, ne_eq]
    exact fun h => h1 h.symm
  have e2 : (("page", "pages").1 == ct) = false := by
    simp only [beq_eq_false_iff_ne, ne_eq]
    exact fun h => h2 h.symm
  simp only [List.find?, e1, e2]

/-- C8 witness: a content type outside the map passes through unchanged. -/
theorem c8_witness : getAcfEndpointBase "product" = "product" :=
  c8_update_request.2.2.2 "product" (by decide) (by decide)

/-- C9: in every list-style handler, an upstream array is mapped elementwise
through the per-item transform, and a non-array upstream response is passed
through unchanged without the transform being applied. -/
theorem c9_list_transform :
    (∀ xs, listWooNormalize (.arr xs) = .arr (xs.map formatProductSummary)) ∧
    (∀ v, v.isArr = false → listWooNormalize v = v) ∧
    (∀ xs, searchWooNormalize (.arr xs) = .arr (xs.map formatProductSummary)) ∧
    (∀ v, v.isArr = false → searchWooNormalize v = v) ∧
    (∀ xs, variationsNormalize (.arr xs) = .arr (xs.map formatVariationSummary)) ∧
    (∀ v, v.isArr = false → variationsNormalize v = v) ∧
    (∀ xs, listAcfNormalize (.arr xs) = .arr (xs.map listAcfItem)) ∧
    (∀ v, v.isArr = false → listAcfNormalize v = v) := by
  refine ⟨fun xs => rfl, ?_, fun xs => rfl, ?_, fun xs => rfl, ?_,
    fun xs => rfl, ?_⟩ <;>
    (intro v h; cases v <;> first | rfl | cases h)

/-- C9 witness: a non-array (error body) response is passed through. -/
theorem c9_witness :
    listWooNormalize (.num 3) = .num 3 ∧
    listAcfNormalize (.str "error body") = .str "error body" :=
  ⟨c9_list_transform.2.1 (.num 3) rfl,
   c9_list_transform.2.2.2.2.2.2.2 (.str "error body") rfl⟩
